import Mathlib

/- Verification development for the earthquake-analysis repository.

   The repository holds two near-duplicate Python scripts:
   src/earthquake_analysis.py (defensively coded, namespace `Analysis` below)
   and src/earthquakes_completed.py (concise, namespace `Completed` below).
   Both fetch a GeoJSON document of seismic events and scan it for the
   strongest event.

   Embedding conventions:
   - a JSON dictionary field is `JField`: the key can be absent, present with
     a null value, or present with a typed value;
   - Python numbers (int and float magnitudes) are embedded as `Rat`;
   - a Python expression that can raise is embedded as `Except Unit`, with
     `Except.error ()` standing for any raised exception (KeyError on a
     missing dictionary key, TypeError on len(None) or iterating None,
     AttributeError on None.get, IndexError on a too-short list);
   - a Python datetime produced by datetime.fromtimestamp(ms / 1000) is
     represented by its epoch-millisecond argument `ms` (the conversion is
     injective on the embedded domain, so nothing is lost). -/

deriving instance DecidableEq for Except

namespace Earthquakes

/-- A field of a JSON dictionary: the key may be absent, present with a
null value, or present with a value of the expected type. -/
inductive JField (α : Type) where
  | absent : JField α
  | null : JField α
  | val : α → JField α
deriving DecidableEq

/-- The properties object of one GeoJSON event feature: magnitude, place
name and time (epoch milliseconds), each possibly absent or null. -/
structure Properties where
  mag : JField Rat
  place : JField String
  time : JField Int
deriving DecidableEq

/-- The geometry object of one feature: a coordinates array of numbers,
ordered longitude, latitude, then optionally depth. -/
structure Geometry where
  coordinates : JField (List Rat)
deriving DecidableEq

/-- One event feature of the GeoJSON response. -/
structure EventRecord where
  properties : JField Properties
  geometry : JField Geometry
deriving DecidableEq

/-- The parsed top-level GeoJSON document; only the features list is
consumed by the two scripts. -/
structure Data where
  features : JField (List EventRecord)
deriving DecidableEq

/-- The value returned by the defensive variant's get_maximum: the early
return at line 111 of earthquake_analysis.py is a 2-tuple
`0, (None, None)`, while the normal return at line 124 is a 3-tuple
`max_magnitude, max_location, max_earthquake`. -/
inductive MaxResult where
  | pair : Rat → Option Rat × Option Rat → MaxResult
  | triple : Rat → Option Rat × Option Rat → Option EventRecord → MaxResult
deriving DecidableEq

/-- An HTTP response as the scripts see it: a status code, and the outcome
of parsing the body text with json.loads (error = JSONDecodeError). -/
structure HttpResponse where
  status : Nat
  body : Except Unit Data

/-- Python `x or 0` applied to the value returned by the defensive
get_magnitude (None ↦ 0, a number is returned unchanged; 0 is already 0). -/
def orZero (mg : Option Rat) : Rat :=
  match mg with
  | none => 0
  | some q => q

/-- The comparison used to embed Python's stable sort with reverse=True on
decorated (key, record) pairs: descending by key. -/
def descBy (a b : Rat × EventRecord) : Bool := decide (b.1 ≤ a.1)

namespace Analysis

/-- count_earthquakes, earthquake_analysis.py lines 74-78:
`if data and 'features' in data: return len(data['features']); return 0`.
A null features value passes the key test and len(None) raises. -/
def count_earthquakes (data : Option Data) : Except Unit Nat :=
  match data with
  | none => .ok 0
  | some d =>
    match d.features with
    | .absent => .ok 0
    | .null => .error ()
    | .val fs => .ok fs.length

/-- get_magnitude, earthquake_analysis.py lines 80-83:
`earthquake.get('properties', {}).get('mag', 0)`. An absent properties or
mag key yields the default 0; a null mag yields Python None; a null
properties object makes the second .get raise AttributeError. -/
def get_magnitude (e : EventRecord) : Except Unit (Option Rat) :=
  match e.properties with
  | .null => .error ()
  | .absent => .ok (some 0)
  | .val p =>
    match p.mag with
    | .absent => .ok (some 0)
    | .null => .ok none
    | .val q => .ok (some q)

/-- get_location, earthquake_analysis.py lines 85-92: reads
geometry.get('coordinates', []), and when the array has at least two
entries returns (coordinates[1], coordinates[0]), else (None, None).
A null geometry or coordinates value raises (None.get / len(None)). -/
def get_location (e : EventRecord) : Except Unit (Option Rat × Option Rat) :=
  match e.geometry with
  | .null => .error ()
  | .absent => .ok (none, none)
  | .val g =>
    match g.coordinates with
    | .null => .error ()
    | .absent => .ok (none, none)
    | .val (lon :: lat :: _) => .ok (some lat, some lon)
    | .val _ => .ok (none, none)

/-- get_place_name, earthquake_analysis.py lines 94-97:
`properties.get('place', 'Unknown')` with the properties default {}. -/
def get_place_name (e : EventRecord) : Except Unit (Option String) :=
  match e.properties with
  | .null => .error ()
  | .absent => .ok (some (r"Unknown"))
  | .val p =>
    match p.place with
    | .absent => .ok (some (r"Unknown"))
    | .null => .ok none
    | .val s => .ok (some s)

/-- get_time, earthquake_analysis.py lines 99-106: reads
`properties.get('time', 0)`; a falsy value (0, None from a null field, or
the 0 default of an absent field) yields None, otherwise the millisecond
timestamp is converted with datetime.fromtimestamp (represented here by
the millisecond value itself). -/
def get_time (e : EventRecord) : Except Unit (Option Int) :=
  match e.properties with
  | .null => .error ()
  | .absent => .ok none
  | .val p =>
    match p.time with
    | .absent => .ok none
    | .null => .ok none
    | .val t => if t = 0 then .ok none else .ok (some t)

/-- The scan loop of get_maximum, earthquake_analysis.py lines 117-122:
`if magnitude and magnitude > max_magnitude:` updates the running
maximum, its location and the record. A falsy magnitude (None or 0)
never updates. -/
def maxLoop (fs : List EventRecord) (maxMag : Rat)
    (maxLoc : Option Rat × Option Rat) (maxEq : Option EventRecord) :
    Except Unit MaxResult :=
  match fs with
  | [] => .ok (.triple maxMag maxLoc maxEq)
  | e :: rest =>
    match get_magnitude e with
    | .error u => .error u
    | .ok none => maxLoop rest maxMag maxLoc maxEq
    | .ok (some q) =>
      if q ≠ 0 ∧ maxMag < q then
        match get_location e with
        | .error u => .error u
        | .ok l => maxLoop rest q l (some e)
      else
        maxLoop rest maxMag maxLoc maxEq

/-- get_maximum, earthquake_analysis.py lines 108-124. With falsy data or
an absent features key it returns the 2-tuple `0, (None, None)`;
otherwise it scans the features (iterating a null features raises). -/
def get_maximum (data : Option Data) : Except Unit MaxResult :=
  match data with
  | none => .ok (.pair 0 (none, none))
  | some d =>
    match d.features with
    | .absent => .ok (.pair 0 (none, none))
    | .null => .error ()
    | .val fs => maxLoop fs 0 (none, none) none

/-- The magnitudes list comprehension of analyze_earthquakes,
earthquake_analysis.py line 143:
`[get_magnitude(eq) for eq in data['features'] if get_magnitude(eq) is not None]`. -/
def magnitudesList (fs : List EventRecord) : Except Unit (List Rat) :=
  match fs with
  | [] => .ok []
  | e :: rest =>
    match get_magnitude e with
    | .error u => .error u
    | .ok none => magnitudesList rest
    | .ok (some q) =>
      match magnitudesList rest with
      | .error u => .error u
      | .ok ms => .ok (q :: ms)

/-- The magnitude statistics of analyze_earthquakes, earthquake_analysis.py
lines 144-146: when the magnitudes list is non-empty, its min, max and
mean (sum divided by length); an empty list produces no statistics. -/
def magnitudeStats (fs : List EventRecord) :
    Except Unit (Option (Rat × Rat × Rat)) :=
  match magnitudesList fs with
  | .error u => .error u
  | .ok [] => .ok none
  | .ok (q :: ms) =>
    .ok (some (ms.foldl min q, ms.foldl max q,
      (ms.foldl (fun a b => a + b) q) / ((ms.length : Rat) + 1)))

/-- The decoration step of Python sorted with a key function: the key
`get_magnitude(x) or 0` is computed for every feature in order
(earthquake_analysis.py lines 160-162); a raising key propagates. -/
def decorate (fs : List EventRecord) : Except Unit (List (Rat × EventRecord)) :=
  match fs with
  | [] => .ok []
  | e :: rest =>
    match get_magnitude e with
    | .error u => .error u
    | .ok mg =>
      match decorate rest with
      | .error u => .error u
      | .ok l => .ok ((orZero mg, e) :: l)

/-- The top-5 sublist of analyze_earthquakes, earthquake_analysis.py lines
160-164: `sorted(data['features'], key=lambda x: get_magnitude(x) or 0,
reverse=True)[:5]`. Python's sort is a stable descending sort by the key;
it is embedded as a stable mergeSort with the reversed comparison. -/
def top5 (fs : List EventRecord) : Except Unit (List EventRecord) :=
  match decorate fs with
  | .error u => .error u
  | .ok l =>
    .ok (((l.mergeSort descBy).map Prod.snd).take 5)

/-- get_data, earthquake_analysis.py lines 36-43: on status 200 the body is
parsed with json.loads (a parse failure propagates) and returned; on any
other status the function returns None. -/
def get_data (r : HttpResponse) : Except Unit (Option Data) :=
  if r.status = 200 then
    match r.body with
    | .error u => .error u
    | .ok d => .ok (some d)
  else .ok none

/-- The abort branch of main, earthquake_analysis.py lines 178-182: whether
main proceeds to analyze (`.ok true`) or returns early because get_data
gave None (`.ok false`); a get_data exception propagates. -/
def main_analyzes (r : HttpResponse) : Except Unit Bool :=
  match get_data r with
  | .error u => .error u
  | .ok none => .ok false
  | .ok (some _) => .ok true

end Analysis

namespace Completed

/-- get_data, earthquakes_completed.py lines 8-32: the status code is never
inspected; the body text is always passed to json.loads. -/
def get_data (r : HttpResponse) : Except Unit Data := r.body

/-- count_earthquakes, earthquakes_completed.py lines 34-36:
`len(data['features'])`; an absent key raises KeyError, a null value makes
len raise TypeError. -/
def count_earthquakes (d : Data) : Except Unit Nat :=
  match d.features with
  | .absent => .error ()
  | .null => .error ()
  | .val fs => .ok fs.length

/-- get_magnitude, earthquakes_completed.py lines 38-40:
`earthquake['properties']['mag']`; absent keys raise KeyError, a null
properties object raises TypeError on subscripting. -/
def get_magnitude (e : EventRecord) : Except Unit (Option Rat) :=
  match e.properties with
  | .absent => .error ()
  | .null => .error ()
  | .val p =>
    match p.mag with
    | .absent => .error ()
    | .null => .ok none
    | .val q => .ok (some q)

/-- get_location, earthquakes_completed.py lines 42-46:
`earthquake['geometry']['coordinates']` then
`coordinates[1], coordinates[0]` with no length guard (IndexError on a
short array). -/
def get_location (e : EventRecord) : Except Unit (Rat × Rat) :=
  match e.geometry with
  | .absent => .error ()
  | .null => .error ()
  | .val g =>
    match g.coordinates with
    | .absent => .error ()
    | .null => .error ()
    | .val (lon :: lat :: _) => .ok (lat, lon)
    | .val _ => .error ()

/-- The scan loop of get_maximum, earthquakes_completed.py lines 53-57,
identical comparison to the defensive variant but without the tracked
record; max_location starts as (None, None) and updates hold numbers. -/
def maxLoop (fs : List EventRecord) (maxMag : Rat)
    (maxLoc : Option Rat × Option Rat) :
    Except Unit (Rat × (Option Rat × Option Rat)) :=
  match fs with
  | [] => .ok (maxMag, maxLoc)
  | e :: rest =>
    match get_magnitude e with
    | .error u => .error u
    | .ok none => maxLoop rest maxMag maxLoc
    | .ok (some q) =>
      if q ≠ 0 ∧ maxMag < q then
        match get_location e with
        | .error u => .error u
        | .ok l => maxLoop rest q (some l.1, some l.2)
      else
        maxLoop rest maxMag maxLoc

/-- get_maximum, earthquakes_completed.py lines 48-59:
`for earthquake in data['features']` (KeyError on an absent key, TypeError
iterating null), then the scan loop from magnitude 0. -/
def get_maximum (d : Data) : Except Unit (Rat × (Option Rat × Option Rat)) :=
  match d.features with
  | .absent => .error ()
  | .null => .error ()
  | .val fs => maxLoop fs 0 (none, none)

end Completed

/-- The value of the defensive get_magnitude in every case where it does not
raise: Python None for a null mag value, the default 0 for an absent mag
key or properties object, the number otherwise. (At a null properties
object, where the accessor raises, this returns the junk value some 0.) -/
def pureMag (e : EventRecord) : Option Rat :=
  match e.properties with
  | .val p =>
    match p.mag with
    | .absent => some 0
    | .null => none
    | .val q => some q
  | _ => some 0

/-- The value of the defensive get_location in every case where it does not
raise: the swapped coordinate pair when the array has two entries, the
(None, None) sentinel otherwise. -/
def pureLoc (e : EventRecord) : Option Rat × Option Rat :=
  match e.geometry with
  | .val g =>
    match g.coordinates with
    | .val (lon :: lat :: _) => (some lat, some lon)
    | _ => (none, none)
  | _ => (none, none)

/-- A record on which the defensive accessors cannot raise: no null
properties object, no null geometry object, no null coordinates value.
(Absent fields are fine — that is what the defaults are for.) -/
def recordOk (e : EventRecord) : Bool :=
  match e.properties with
  | .null => false
  | _ =>
    match e.geometry with
    | .null => false
    | .absent => true
    | .val g =>
      match g.coordinates with
      | .null => false
      | _ => true

/-- A well-formed record in the spec's sense: a properties object with the
mag key present (null or a number), and a geometry object whose
coordinates array has at least two entries. -/
def wfRecord (e : EventRecord) : Bool :=
  match e.properties with
  | .val p =>
    match p.mag with
    | .absent => false
    | _ =>
      match e.geometry with
      | .val g =>
        match g.coordinates with
        | .val (_ :: _ :: _) => true
        | _ => false
      | _ => false
  | _ => false

/-- The sort key of the top-5 ranking as a pure function of the record:
get_magnitude followed by Python `or 0` (missing treated as 0). -/
def sortKey (e : EventRecord) : Rat := orZero (pureMag e)

/-- Whether a record carries a present, strictly positive magnitude. -/
def magPositive (e : EventRecord) : Bool :=
  match pureMag e with
  | some q => decide (0 < q)
  | none => false

/-- All present magnitude values of a collection, in order (null-mag
records dropped; absent-mag records contribute their default 0). -/
def presentMags (fs : List EventRecord) : List Rat := fs.filterMap pureMag

/-- The present, strictly positive magnitude values of a collection. -/
def posMags (fs : List EventRecord) : List Rat :=
  fs.filterMap fun r =>
    match pureMag r with
    | some q => if 0 < q then some q else none
    | none => none

/-- Modelled from the spec: the magnitude values the spec's edge-case
policy does not exclude from the maximum search — present and not
falsy-zero (the spec excludes only "falsy-zero or missing" values, so
negative magnitudes count as non-excluded). -/
def nonExcludedMags (fs : List EventRecord) : List Rat :=
  fs.filterMap fun r =>
    match pureMag r with
    | some q => if q ≠ 0 then some q else none
    | none => none

/-- The scan of get_maximum as a pure function, defined on records where
the accessors cannot raise; used to characterise Analysis.maxLoop. -/
def pureMaxLoop (fs : List EventRecord) (m : Rat)
    (loc : Option Rat × Option Rat) (best : Option EventRecord) :
    Rat × (Option Rat × Option Rat) × Option EventRecord :=
  match fs with
  | [] => (m, loc, best)
  | e :: rest =>
    match pureMag e with
    | none => pureMaxLoop rest m loc best
    | some q =>
      if q ≠ 0 ∧ m < q then pureMaxLoop rest q (pureLoc e) (some e)
      else pureMaxLoop rest m loc best

theorem recordOk_props {e : EventRecord} (h : recordOk e = true) :
    e.properties ≠ JField.null := by
  intro hp
  simp [recordOk, hp] at h

theorem get_magnitude_pure {e : EventRecord} (h : e.properties ≠ JField.null) :
    Analysis.get_magnitude e = .ok (pureMag e) := by
  cases hp : e.properties with
  | null => exact absurd hp h
  | absent => simp [Analysis.get_magnitude, pureMag, hp]
  | val p => cases hm : p.mag <;> simp [Analysis.get_magnitude, pureMag, hp, hm]

theorem get_location_pure {e : EventRecord} (h : recordOk e = true) :
    Analysis.get_location e = .ok (pureLoc e) := by
  cases hg : e.geometry with
  | null =>
    exfalso
    cases hp : e.properties <;> simp [recordOk, hp, hg] at h
  | absent => simp [Analysis.get_location, pureLoc, hg]
  | val g =>
    cases hc : g.coordinates with
    | null =>
      exfalso
      cases hp : e.properties <;> simp [recordOk, hp, hg, hc] at h
    | absent => simp [Analysis.get_location, pureLoc, hg, hc]
    | val cs =>
      match cs with
      | [] => simp [Analysis.get_location, pureLoc, hg, hc]
      | [a] => simp [Analysis.get_location, pureLoc, hg, hc]
      | lon :: lat :: rest => simp [Analysis.get_location, pureLoc, hg, hc]

/-- C2: for every record whose raw geometry coordinates array is
(longitude, latitude, [depth…]), both variants' location accessors return
the swapped pair (latitude, longitude); the raw axis order is never passed
through unchanged. -/
theorem location_swaps (e : EventRecord) (g : Geometry) (lon lat : Rat)
    (rest : List Rat) (hg : e.geometry = .val g)
    (hc : g.coordinates = .val (lon :: lat :: rest)) :
    Analysis.get_location e = .ok (some lat, some lon) ∧
    Completed.get_location e = .ok (lat, lon) := by
  constructor
  · simp [Analysis.get_location, hg, hc]
  · simp [Completed.get_location, hg, hc]

/-- Witness for C2 at the spec's sample coordinates [-3, 55, 10]. -/
theorem location_swaps_witness :
    Analysis.get_location ⟨.absent, .val ⟨.val [-3, 55, 10]⟩⟩ =
      .ok (some 55, some (-3)) ∧
    Completed.get_location ⟨.absent, .val ⟨.val [-3, 55, 10]⟩⟩ =
      .ok (55, -3) :=
  location_swaps ⟨.absent, .val ⟨.val [-3, 55, 10]⟩⟩ ⟨.val [-3, 55, 10]⟩
    (-3) 55 [10] rfl rfl

/-- C10: get_time returns None when the time field is exactly 0 or absent
(an absent properties object included), and the converted calendar time
(represented here by its epoch-millisecond argument) for every non-zero
timestamp. -/
theorem getTime_epoch_zero (e : EventRecord) :
    (e.properties = .absent → Analysis.get_time e = .ok none) ∧
    (∀ p, e.properties = .val p →
      ((p.time = .absent ∨ p.time = .val 0) →
        Analysis.get_time e = .ok none) ∧
      (∀ t, p.time = .val t → t ≠ 0 →
        Analysis.get_time e = .ok (some t))) := by
  constructor
  · intro h
    simp [Analysis.get_time, h]
  · intro p hp
    constructor
    · rintro (h | h) <;> simp [Analysis.get_time, hp, h]
    · intro t ht hne
      simp [Analysis.get_time, hp, ht, hne]

/-- Witness for C10: a record with timestamp 5 ms. -/
theorem getTime_epoch_zero_witness :
    Analysis.get_time ⟨.val ⟨.absent, .absent, .val 5⟩, .absent⟩ =
      .ok (some 5) :=
  ((getTime_epoch_zero ⟨.val ⟨.absent, .absent, .val 5⟩, .absent⟩).2
    ⟨.absent, .absent, .val 5⟩ rfl).2 5 rfl (by decide)

/-- C6 (amended): in the defensive variant, on any record without null
properties, geometry or coordinates objects, all four accessors return
normally, and absence of any optional field yields the documented sentinel
or default rather than an exception. In the concise variant get_magnitude
and get_location do raise on absent keys (see the counterexample). -/
theorem accessors_never_raise (e : EventRecord) (h : recordOk e = true) :
    (∃ v, Analysis.get_magnitude e = .ok v) ∧
    (∃ v, Analysis.get_location e = .ok v) ∧
    (∃ v, Analysis.get_place_name e = .ok v) ∧
    (∃ v, Analysis.get_time e = .ok v) ∧
    (e.properties = .absent →
      Analysis.get_magnitude e = .ok (some 0) ∧
      Analysis.get_place_name e = .ok (some (r"Unknown")) ∧
      Analysis.get_time e = .ok none) ∧
    (e.geometry = .absent → Analysis.get_location e = .ok (none, none)) ∧
    (∀ p, e.properties = .val p →
      (p.mag = .absent → Analysis.get_magnitude e = .ok (some 0)) ∧
      (p.place = .absent →
        Analysis.get_place_name e = .ok (some (r"Unknown"))) ∧
      (p.time = .absent → Analysis.get_time e = .ok none)) ∧
    (∀ g, e.geometry = .val g → g.coordinates = .absent →
      Analysis.get_location e = .ok (none, none)) := by
  have hp := recordOk_props h
  refine ⟨⟨pureMag e, get_magnitude_pure hp⟩, ⟨pureLoc e, get_location_pure h⟩,
    ?_, ?_, ?_, ?_, ?_, ?_⟩
  · cases hq : e.properties with
    | null => exact absurd hq hp
    | absent => exact ⟨some (r"Unknown"), by simp [Analysis.get_place_name, hq]⟩
    | val p =>
      cases hpl : p.place with
      | absent =>
        exact ⟨some (r"Unknown"), by simp [Analysis.get_place_name, hq, hpl]⟩
      | null => exact ⟨none, by simp [Analysis.get_place_name, hq, hpl]⟩
      | val s => exact ⟨some s, by simp [Analysis.get_place_name, hq, hpl]⟩
  · cases hq : e.properties with
    | null => exact absurd hq hp
    | absent => exact ⟨none, by simp [Analysis.get_time, hq]⟩
    | val p =>
      cases ht : p.time with
      | absent => exact ⟨none, by simp [Analysis.get_time, hq, ht]⟩
      | null => exact ⟨none, by simp [Analysis.get_time, hq, ht]⟩
      | val t =>
        by_cases h0 : t = 0
        · exact ⟨none, by simp [Analysis.get_time, hq, ht, h0]⟩
        · exact ⟨some t, by simp [Analysis.get_time, hq, ht, h0]⟩
  · intro ha
    exact ⟨by simp [Analysis.get_magnitude, ha],
      by simp [Analysis.get_place_name, ha], by simp [Analysis.get_time, ha]⟩
  · intro ha
    simp [Analysis.get_location, ha]
  · intro p hq
    refine ⟨fun hm => ?_, fun hpl => ?_, fun ht => ?_⟩
    · simp [Analysis.get_magnitude, hq, hm]
    · simp [Analysis.get_place_name, hq, hpl]
    · simp [Analysis.get_time, hq, ht]
  · intro g hg hc
    simp [Analysis.get_location, hg, hc]

/-- Witness for C6 at a record with everything absent. -/
theorem accessors_never_raise_witness :
    Analysis.get_magnitude ⟨.absent, .absent⟩ = .ok (some 0) ∧
    Analysis.get_place_name ⟨.absent, .absent⟩ = .ok (some (r"Unknown")) ∧
    Analysis.get_time ⟨.absent, .absent⟩ = .ok none :=
  (accessors_never_raise ⟨.absent, .absent⟩ (by decide)).2.2.2.2.1 rfl

/-- C6 counterexample: the concise variant's accessors raise (KeyError) on
a record whose optional properties and geometry fields are absent, so the
claim that every extractor accessor never raises on an absent optional
field is false of earthquakes_completed.py. -/
theorem accessors_raise_on_absent :
    Completed.get_magnitude ⟨.absent, .absent⟩ = .error () ∧
    Completed.get_location ⟨.absent, .absent⟩ = .error () :=
  ⟨rfl, rfl⟩

theorem maxLoop_best_truthy (fs : List EventRecord) :
    ∀ (m : Rat) (loc : Option Rat × Option Rat) (best : Option EventRecord)
      (M : Rat) (L : Option Rat × Option Rat) (e : EventRecord),
      (∀ e0, best = some e0 →
        ∃ q, Analysis.get_magnitude e0 = .ok (some q) ∧ q ≠ 0) →
      Analysis.maxLoop fs m loc best = .ok (.triple M L (some e)) →
      ∃ q, Analysis.get_magnitude e = .ok (some q) ∧ q ≠ 0 := by
  induction fs with
  | nil =>
    intro m loc best M L e hinv hloop
    simp only [Analysis.maxLoop, Except.ok.injEq, MaxResult.triple.injEq] at hloop
    exact hinv e hloop.2.2
  | cons head tail ih =>
    intro m loc best M L e hinv hloop
    cases hmg : Analysis.get_magnitude head with
    | error u =>
      simp only [Analysis.maxLoop, hmg] at hloop
      exact Except.noConfusion hloop
    | ok mg =>
      cases mg with
      | none =>
        simp only [Analysis.maxLoop, hmg] at hloop
        exact ih _ _ _ _ _ _ hinv hloop
      | some q =>
        simp only [Analysis.maxLoop, hmg] at hloop
        by_cases hcond : q ≠ 0 ∧ m < q
        · rw [if_pos hcond] at hloop
          cases hl : Analysis.get_location head with
          | error u =>
            simp only [hl] at hloop
            exact Except.noConfusion hloop
          | ok l =>
            simp only [hl] at hloop
            refine ih _ _ _ _ _ _ ?_ hloop
            intro e0 he0
            cases he0
            exact ⟨q, hmg, hcond.1⟩
        · rw [if_neg hcond] at hloop
          exact ih _ _ _ _ _ _ hinv hloop

theorem maxLoop_all_falsy (fs : List EventRecord) :
    ∀ (m : Rat) (loc : Option Rat × Option Rat) (best : Option EventRecord),
      (∀ r ∈ fs, Analysis.get_magnitude r = .ok none ∨
        Analysis.get_magnitude r = .ok (some 0)) →
      Analysis.maxLoop fs m loc best = .ok (.triple m loc best) := by
  induction fs with
  | nil => intro m loc best _; rfl
  | cons head tail ih =>
    intro m loc best h
    have hh := h head (List.mem_cons_self head tail)
    have ht : ∀ r ∈ tail, Analysis.get_magnitude r = .ok none ∨
        Analysis.get_magnitude r = .ok (some 0) :=
      fun r hr => h r (List.mem_cons_of_mem head hr)
    rcases hh with hh | hh <;> simp only [Analysis.maxLoop, hh]
    · exact ih _ _ _ ht
    · have : ¬((0 : Rat) ≠ 0 ∧ m < 0) := by
        intro hc
        exact hc.1 rfl
      rw [if_neg this]
      exact ih _ _ _ ht

/-- C4: a record whose magnitude is exactly 0 or missing is excluded from
get_maximum's scan: whenever the scan returns a tracked record, that
record's magnitude is present and non-zero, and when every record's
magnitude is 0 or missing the scan returns magnitude 0, location
(None, None) and no record at all. -/
theorem zero_magnitude_excluded (d : Data) (fs : List EventRecord)
    (hf : d.features = .val fs) :
    (∀ M L e, Analysis.get_maximum (some d) = .ok (.triple M L (some e)) →
      ∃ q, Analysis.get_magnitude e = .ok (some q) ∧ q ≠ 0) ∧
    ((∀ r ∈ fs, Analysis.get_magnitude r = .ok none ∨
        Analysis.get_magnitude r = .ok (some 0)) →
      Analysis.get_maximum (some d) = .ok (.triple 0 (none, none) none)) := by
  have hmax : Analysis.get_maximum (some d) = Analysis.maxLoop fs 0 (none, none) none := by
    simp [Analysis.get_maximum, hf]
  constructor
  · intro M L e h
    rw [hmax] at h
    exact maxLoop_best_truthy fs 0 (none, none) none M L e
      (by intro e0 h0; cases h0) h
  · intro h
    rw [hmax]
    exact maxLoop_all_falsy fs 0 (none, none) none h

/-- Witness for C4: a collection holding one zero-magnitude record and one
null-magnitude record returns the empty maximum. -/
theorem zero_magnitude_excluded_witness :
    Analysis.get_maximum
      (some ⟨.val [⟨.val ⟨.val 0, .absent, .absent⟩, .absent⟩,
        ⟨.val ⟨.null, .absent, .absent⟩, .absent⟩]⟩) =
      .ok (.triple 0 (none, none) none) :=
  (zero_magnitude_excluded _ _ rfl).2 (by decide)

theorem magnitudesList_pure (fs : List EventRecord)
    (h : ∀ r ∈ fs, r.properties ≠ JField.null) :
    Analysis.magnitudesList fs = .ok (fs.filterMap pureMag) := by
  induction fs with
  | nil => rfl
  | cons head tail ih =>
    have hh := get_magnitude_pure (h head (List.mem_cons_self head tail))
    have ht := ih (fun r hr => h r (List.mem_cons_of_mem head hr))
    cases hm : pureMag head with
    | none =>
      rw [hm] at hh
      simp only [Analysis.magnitudesList, hh, ht, List.filterMap_cons, hm]
    | some q =>
      rw [hm] at hh
      simp only [Analysis.magnitudesList, hh, ht, List.filterMap_cons, hm]

/-- C5 (amended): the magnitudes list feeding the min/max/mean statistics
keeps exactly the non-None results of get_magnitude: a record whose mag
value is null is excluded from the statistics, while a record whose mag
key (or whole properties object) is absent enters them with the default
magnitude 0; either way every record still counts toward the total. -/
theorem magnitudes_stats_membership (fs : List EventRecord)
    (h : ∀ r ∈ fs, r.properties ≠ JField.null) :
    Analysis.magnitudesList fs = .ok (fs.filterMap pureMag) ∧
    Analysis.count_earthquakes (some ⟨.val fs⟩) = .ok fs.length ∧
    (∀ r ∈ fs, ∀ p, r.properties = .val p →
      (p.mag = .null → pureMag r = none) ∧
      (p.mag = .absent → pureMag r = some 0)) := by
  refine ⟨magnitudesList_pure fs h, by simp [Analysis.count_earthquakes], ?_⟩
  intro r _ p hp
  exact ⟨fun hm => by simp [pureMag, hp, hm], fun hm => by simp [pureMag, hp, hm]⟩

/-- Witness for C5: a null-magnitude record is dropped from the magnitudes
list while a value-carrying one stays, and both are counted. -/
theorem magnitudes_stats_membership_witness :
    Analysis.magnitudesList
      [⟨.val ⟨.null, .absent, .absent⟩, .absent⟩,
        ⟨.val ⟨.val 5, .absent, .absent⟩, .absent⟩] =
      .ok ([⟨.val ⟨.null, .absent, .absent⟩, .absent⟩,
        ⟨.val ⟨.val 5, .absent, .absent⟩, .absent⟩].filterMap pureMag) ∧
    Analysis.count_earthquakes
      (some ⟨.val [⟨.val ⟨.null, .absent, .absent⟩, .absent⟩,
        ⟨.val ⟨.val 5, .absent, .absent⟩, .absent⟩]⟩) = .ok 2 :=
  ⟨(magnitudes_stats_membership _ (by decide)).1,
    (magnitudes_stats_membership _ (by decide)).2.1⟩

/-- C5 counterexample: a record whose mag key is absent is NOT excluded
from the statistics. With one absent-mag record and one magnitude-5 record
the magnitudes list is [0, 5]: the computed minimum is 0 and the mean 5/2,
not the 5 and 5 that exclusion would give, though the total count is 2. -/
theorem absent_mag_included :
    Analysis.magnitudesList
      [⟨.val ⟨.absent, .absent, .absent⟩, .absent⟩,
        ⟨.val ⟨.val 5, .absent, .absent⟩, .absent⟩] = .ok [0, 5] ∧
    Analysis.magnitudeStats
      [⟨.val ⟨.absent, .absent, .absent⟩, .absent⟩,
        ⟨.val ⟨.val 5, .absent, .absent⟩, .absent⟩] =
      .ok (some (0, 5, 5 / 2)) ∧
    (0 : Rat) ≠ 5 := by
  refine ⟨rfl, ?_, by norm_num⟩
  simp only [Analysis.magnitudeStats, Analysis.magnitudesList,
    Analysis.get_magnitude, List.foldl_cons, List.foldl_nil, List.length_cons,
    List.length_nil, Except.ok.injEq, Option.some.injEq, Prod.mk.injEq]
  norm_num [min_def, max_def]

/-- C7 (amended): with features present and empty, both variants return the
zero summary (count 0, maximum 0, location (None, None), no record) and no
failure; with the features field absent, the defensive variant still
returns count 0 and the 2-tuple (0, (None, None)) — as it also does on
data None — but the concise variant's count_earthquakes raises KeyError. -/
theorem empty_collection_summary (d : Data) :
    (d.features = .val [] →
      Analysis.count_earthquakes (some d) = .ok 0 ∧
      Analysis.get_maximum (some d) = .ok (.triple 0 (none, none) none) ∧
      Completed.count_earthquakes d = .ok 0 ∧
      Completed.get_maximum d = .ok (0, (none, none))) ∧
    (d.features = .absent →
      Analysis.count_earthquakes (some d) = .ok 0 ∧
      Analysis.get_maximum (some d) = .ok (.pair 0 (none, none)) ∧
      Completed.count_earthquakes d = .error ()) ∧
    (Analysis.count_earthquakes none = .ok 0 ∧
      Analysis.get_maximum none = .ok (.pair 0 (none, none))) := by
  refine ⟨fun h => ?_, fun h => ?_, rfl, rfl⟩
  · exact ⟨by simp [Analysis.count_earthquakes, h],
      by simp [Analysis.get_maximum, h, Analysis.maxLoop],
      by simp [Completed.count_earthquakes, h],
      by simp [Completed.get_maximum, h, Completed.maxLoop]⟩
  · exact ⟨by simp [Analysis.count_earthquakes, h],
      by simp [Analysis.get_maximum, h],
      by simp [Completed.count_earthquakes, h]⟩

/-- Witness for C7 at the empty collection. -/
theorem empty_collection_summary_witness :
    Analysis.get_maximum (some ⟨.val []⟩) = .ok (.triple 0 (none, none) none) ∧
    Completed.get_maximum ⟨.val []⟩ = .ok (0, (none, none)) :=
  ⟨((empty_collection_summary ⟨.val []⟩).1 rfl).2.1,
    ((empty_collection_summary ⟨.val []⟩).1 rfl).2.2.2⟩

/-- C7 counterexample: with the top-level features field absent the concise
variant's aggregation does raise (KeyError in count_earthquakes), so "raises
no failure" is false of the repository as a whole. -/
theorem absent_features_raises :
    Completed.count_earthquakes ⟨.absent⟩ = .error () :=
  rfl

theorem wfRecord_shape {e : EventRecord} (h : wfRecord e = true) :
    ∃ p, e.properties = .val p ∧ p.mag ≠ .absent ∧
      ∃ g lon lat rest, e.geometry = .val g ∧
        g.coordinates = .val (lon :: lat :: rest) := by
  cases hp : e.properties with
  | absent => simp [wfRecord, hp] at h
  | null => simp [wfRecord, hp] at h
  | val p =>
    cases hg : e.geometry with
    | absent => cases hm : p.mag <;> simp [wfRecord, hp, hg, hm] at h
    | null => cases hm : p.mag <;> simp [wfRecord, hp, hg, hm] at h
    | val g =>
      cases hc : g.coordinates with
      | absent => cases hm : p.mag <;> simp [wfRecord, hp, hg, hc, hm] at h
      | null => cases hm : p.mag <;> simp [wfRecord, hp, hg, hc, hm] at h
      | val cs =>
        match cs, hc with
        | [], hc => cases hm : p.mag <;> simp [wfRecord, hp, hg, hc, hm] at h
        | [a], hc => cases hm : p.mag <;> simp [wfRecord, hp, hg, hc, hm] at h
        | lon :: lat :: rest, hc =>
          cases hm : p.mag with
          | absent => simp [wfRecord, hp, hg, hc, hm] at h
          | null => exact ⟨p, rfl, by simp [hm], g, lon, lat, rest, rfl, hc⟩
          | val q => exact ⟨p, rfl, by simp [hm], g, lon, lat, rest, rfl, hc⟩

theorem mag_agree {e : EventRecord} (h : wfRecord e = true) :
    ∃ mg, Analysis.get_magnitude e = .ok mg ∧
      Completed.get_magnitude e = .ok mg := by
  obtain ⟨p, hp, hm, -⟩ := wfRecord_shape h
  cases hmm : p.mag with
  | absent => exact absurd hmm hm
  | null =>
    exact ⟨none, by simp [Analysis.get_magnitude, hp, hmm],
      by simp [Completed.get_magnitude, hp, hmm]⟩
  | val q =>
    exact ⟨some q, by simp [Analysis.get_magnitude, hp, hmm],
      by simp [Completed.get_magnitude, hp, hmm]⟩

theorem loc_agree {e : EventRecord} (h : wfRecord e = true) :
    ∃ lat lon, Analysis.get_location e = .ok (some lat, some lon) ∧
      Completed.get_location e = .ok (lat, lon) := by
  obtain ⟨p, hp, hm, g, lon, lat, rest, hg, hc⟩ := wfRecord_shape h
  exact ⟨lat, lon, by simp [Analysis.get_location, hg, hc],
    by simp [Completed.get_location, hg, hc]⟩

theorem maxLoop_agree (fs : List EventRecord) :
    ∀ (m : Rat) (loc : Option Rat × Option Rat) (best : Option EventRecord),
      (∀ r ∈ fs, wfRecord r = true) →
      ∃ M L, Completed.maxLoop fs m loc = .ok (M, L) ∧
        ∃ B, Analysis.maxLoop fs m loc best = .ok (.triple M L B) := by
  induction fs with
  | nil => intro m loc best _; exact ⟨m, loc, rfl, best, rfl⟩
  | cons head tail ih =>
    intro m loc best h
    have hw := h head (List.mem_cons_self head tail)
    have ht : ∀ r ∈ tail, wfRecord r = true :=
      fun r hr => h r (List.mem_cons_of_mem head hr)
    obtain ⟨mg, ha, hc⟩ := mag_agree hw
    cases mg with
    | none =>
      obtain ⟨M, L, h1, B, h2⟩ := ih m loc best ht
      exact ⟨M, L, by simp only [Completed.maxLoop, hc]; exact h1,
        B, by simp only [Analysis.maxLoop, ha]; exact h2⟩
    | some q =>
      by_cases hcond : q ≠ 0 ∧ m < q
      · obtain ⟨lat, lon, hla, hlc⟩ := loc_agree hw
        obtain ⟨M, L, h1, B, h2⟩ := ih q (some lat, some lon) (some head) ht
        refine ⟨M, L, ?_, B, ?_⟩
        · simp only [Completed.maxLoop, hc, if_pos hcond, hlc]
          exact h1
        · simp only [Analysis.maxLoop, ha, if_pos hcond, hla]
          exact h2
      · obtain ⟨M, L, h1, B, h2⟩ := ih m loc best ht
        exact ⟨M, L,
          by simp only [Completed.maxLoop, hc, if_neg hcond]; exact h1,
          B, by simp only [Analysis.maxLoop, ha, if_neg hcond]; exact h2⟩

/-- C8: on any well-formed collection — features present, every record
carrying a mag key under properties and a coordinates array of length at
least 2 under geometry — the get_maximum functions of the two variants
return the same maximum magnitude and the same (latitude, longitude)
location. -/
theorem variants_get_maximum_agree (d : Data) (fs : List EventRecord)
    (hf : d.features = .val fs) (h : ∀ r ∈ fs, wfRecord r = true) :
    ∃ M L, Completed.get_maximum d = .ok (M, L) ∧
      ∃ B, Analysis.get_maximum (some d) = .ok (.triple M L B) := by
  obtain ⟨M, L, h1, B, h2⟩ := maxLoop_agree fs 0 (none, none) none h
  refine ⟨M, L, ?_, B, ?_⟩
  · simp only [Completed.get_maximum, hf]
    exact h1
  · simp only [Analysis.get_maximum, hf]
    exact h2

/-- Witness for C8 at the spec's two-record scenario (magnitudes 4.5 and
5.2, coordinates [-3, 55, 10] and [-1, 53, 5]). -/
theorem variants_get_maximum_agree_witness :
    ∃ M L, Completed.get_maximum
        ⟨.val [⟨.val ⟨.val (9 / 2), .absent, .absent⟩, .val ⟨.val [-3, 55, 10]⟩⟩,
          ⟨.val ⟨.val (26 / 5), .absent, .absent⟩, .val ⟨.val [-1, 53, 5]⟩⟩]⟩ =
        .ok (M, L) ∧
      ∃ B, Analysis.get_maximum
        (some ⟨.val [⟨.val ⟨.val (9 / 2), .absent, .absent⟩, .val ⟨.val [-3, 55, 10]⟩⟩,
          ⟨.val ⟨.val (26 / 5), .absent, .absent⟩, .val ⟨.val [-1, 53, 5]⟩⟩]⟩) =
        .ok (.triple M L B) :=
  variants_get_maximum_agree _ _ rfl (by decide)

/-- C9 (amended): for every response with a non-200 status the defensive
variant's get_data returns the sentinel None and main aborts without
analyzing; the concise variant never inspects the status and simply
returns the outcome of parsing the body, raising only when the body is
not valid JSON. -/
theorem non200_fetch (r : HttpResponse) (h : r.status ≠ 200) :
    Analysis.get_data r = .ok none ∧
    Analysis.main_analyzes r = .ok false ∧
    Completed.get_data r = r.body := by
  have hd : Analysis.get_data r = .ok none := by simp [Analysis.get_data, h]
  exact ⟨hd, by simp [Analysis.main_analyzes, hd], rfl⟩

/-- Witness for C9 at a 404 response with a parse failure as body. -/
theorem non200_fetch_witness :
    Analysis.get_data ⟨404, .error ()⟩ = .ok none ∧
    Analysis.main_analyzes ⟨404, .error ()⟩ = .ok false ∧
    Completed.get_data ⟨404, .error ()⟩ = .error () :=
  non200_fetch ⟨404, .error ()⟩ (by decide)

theorem decorate_pure (fs : List EventRecord)
    (h : ∀ r ∈ fs, r.properties ≠ JField.null) :
    Analysis.decorate fs = .ok (fs.map fun r => (sortKey r, r)) := by
  induction fs with
  | nil => rfl
  | cons head tail ih =>
    have hh := get_magnitude_pure (h head (List.mem_cons_self head tail))
    have ht := ih fun r hr => h r (List.mem_cons_of_mem head hr)
    simp only [Analysis.decorate, hh, ht, List.map_cons, sortKey]

/-- C3: whenever the reporter's top-5 sublist is produced (every record free
of a null properties object, so the key function cannot raise), it has
length min(5, collection size) and is ordered by descending magnitude with
a missing magnitude treated as 0 for the sort key. -/
theorem top5_length_sorted (fs : List EventRecord)
    (h : ∀ r ∈ fs, r.properties ≠ JField.null) :
    ∃ l, Analysis.top5 fs = .ok l ∧ l.length = min 5 fs.length ∧
      l.Pairwise fun a b => sortKey b ≤ sortKey a := by
  have hd := decorate_pure fs h
  have htrans : ∀ (a b c : Rat × EventRecord),
      descBy a b → descBy b c → descBy a c := by
    intro a b c hab hbc
    simp only [descBy, decide_eq_true_eq] at hab hbc ⊢
    exact le_trans hbc hab
  have htotal : ∀ (a b : Rat × EventRecord), descBy a b || descBy b a := by
    intro a b
    simp only [descBy, Bool.or_eq_true, decide_eq_true_eq]
    exact le_total b.1 a.1
  have hsorted := List.sorted_mergeSort htrans htotal
    (fs.map fun r => (sortKey r, r))
  have hfst : ∀ x ∈ (fs.map fun r => (sortKey r, r)).mergeSort descBy,
      x.1 = sortKey x.2 := by
    intro x hx
    rw [List.mem_mergeSort] at hx
    obtain ⟨r, -, hr⟩ := List.mem_map.mp hx
    rw [← hr]
  have hpw : ((fs.map fun r => (sortKey r, r)).mergeSort descBy).Pairwise
      fun a b => sortKey b.2 ≤ sortKey a.2 := by
    refine hsorted.imp_of_mem ?_
    intro a b ha hb hab
    have h1 := hfst a ha
    have h2 := hfst b hb
    simp only [descBy, decide_eq_true_eq] at hab
    rw [← h1, ← h2]
    exact hab
  refine ⟨(((fs.map fun r => (sortKey r, r)).mergeSort descBy).map
      Prod.snd).take 5, ?_, ?_, ?_⟩
  · simp only [Analysis.top5, hd]
  · simp [List.length_take]
  · exact (List.pairwise_map.mpr hpw).sublist (List.take_sublist 5 _)

/-- C9 counterexample: a 404 response whose body still parses as JSON makes
the concise variant's get_data return that data — the fetch yields data and
propagates no failure, contrary to the claim that a non-200 fetch reports
failure and yields no data. -/
theorem non200_yields_data :
    Completed.get_data ⟨404, .ok ⟨.val []⟩⟩ = .ok ⟨.val []⟩ ∧
    (404 : Nat) ≠ 200 :=
  ⟨rfl, by decide⟩

/-- Witness for C3 at a two-record collection with one null magnitude. -/
theorem top5_length_sorted_witness :
    ∃ l, Analysis.top5
        [⟨.val ⟨.null, .absent, .absent⟩, .absent⟩,
          ⟨.val ⟨.val 5, .absent, .absent⟩, .absent⟩] = .ok l ∧
      l.length = min 5
        ([⟨.val ⟨.null, .absent, .absent⟩, .absent⟩,
          ⟨.val ⟨.val 5, .absent, .absent⟩, .absent⟩] :
            List EventRecord).length ∧
      l.Pairwise (fun a b => sortKey b ≤ sortKey a) :=
  top5_length_sorted _ (by decide)

theorem foldl_max_init (l : List Rat) :
    ∀ m : Rat, m ≤ l.foldl max m := by
  induction l with
  | nil => intro m; exact le_refl m
  | cons a t ih =>
    intro m
    exact le_trans (le_max_left m a) (ih (max m a))

theorem foldl_max_mem (l : List Rat) :
    ∀ (m a : Rat), a ∈ l → a ≤ l.foldl max m := by
  induction l with
  | nil => intro m a ha; cases ha
  | cons b t ih =>
    intro m a ha
    rcases List.mem_cons.mp ha with ha | ha
    · subst ha
      exact le_trans (le_max_right m a) (foldl_max_init t (max m a))
    · exact ih (max m b) a ha

theorem maxLoop_pure (fs : List EventRecord) :
    ∀ (m : Rat) (loc : Option Rat × Option Rat) (best : Option EventRecord),
      (∀ r ∈ fs, recordOk r = true) →
      Analysis.maxLoop fs m loc best =
        .ok (.triple (pureMaxLoop fs m loc best).1
          (pureMaxLoop fs m loc best).2.1 (pureMaxLoop fs m loc best).2.2) := by
  induction fs with
  | nil => intro m loc best _; rfl
  | cons head tail ih =>
    intro m loc best h
    have hok := h head (List.mem_cons_self head tail)
    have hmg := get_magnitude_pure (recordOk_props hok)
    have ht : ∀ r ∈ tail, recordOk r = true :=
      fun r hr => h r (List.mem_cons_of_mem head hr)
    cases hm : pureMag head with
    | none =>
      rw [hm] at hmg
      simp only [Analysis.maxLoop, hmg, pureMaxLoop, hm]
      exact ih m loc best ht
    | some q =>
      rw [hm] at hmg
      by_cases hcond : q ≠ 0 ∧ m < q
      · have hl := get_location_pure hok
        simp only [Analysis.maxLoop, hmg, pureMaxLoop, hm, if_pos hcond, hl]
        exact ih q (pureLoc head) (some head) ht
      · simp only [Analysis.maxLoop, hmg, pureMaxLoop, hm, if_neg hcond]
        exact ih m loc best ht

theorem pureMaxLoop_char (fs : List EventRecord) :
    ∀ (m : Rat) (loc : Option Rat × Option Rat) (best : Option EventRecord),
      0 ≤ m →
      (pureMaxLoop fs m loc best).1 = (presentMags fs).foldl max m ∧
      ((presentMags fs).foldl max m = m →
        pureMaxLoop fs m loc best = (m, loc, best)) ∧
      (m < (presentMags fs).foldl max m →
        ∃ fst, fs.find?
            (fun r => decide (pureMag r = some ((presentMags fs).foldl max m))) =
            some fst ∧
          pureMaxLoop fs m loc best =
            ((presentMags fs).foldl max m, pureLoc fst, some fst)) := by
  induction fs with
  | nil =>
    intro m loc best _
    exact ⟨rfl, fun _ => rfl, fun hm => absurd hm (lt_irrefl m)⟩
  | cons e rest ih =>
    intro m loc best h0
    cases hm : pureMag e with
    | none =>
      have hpm : presentMags (e :: rest) = presentMags rest := by
        simp only [presentMags, List.filterMap_cons, hm]
      obtain ⟨c1, c2, c3⟩ := ih m loc best h0
      refine ⟨?_, ?_, ?_⟩
      · rw [hpm]
        simpa only [pureMaxLoop, hm] using c1
      · intro hM
        rw [hpm] at hM
        simpa only [pureMaxLoop, hm] using c2 hM
      · intro hM
        rw [hpm] at hM
        obtain ⟨fst, hfind, hloop⟩ := c3 hM
        refine ⟨fst, ?_, ?_⟩
        · rw [hpm]
          have hne0 : ¬((fun r => decide (pureMag r =
              some ((presentMags rest).foldl max m))) e = true) := by
            simp only [decide_eq_true_eq, hm]
            intro hc
            exact Option.noConfusion hc
          exact (@List.find?_cons_of_neg _
            (fun r => decide (pureMag r = some ((presentMags rest).foldl max m)))
            e rest hne0).trans hfind
        · rw [hpm]
          simpa only [pureMaxLoop, hm] using hloop
    | some q =>
      have hpm : presentMags (e :: rest) = q :: presentMags rest := by
        simp only [presentMags, List.filterMap_cons, hm]
      by_cases hlt : m < q
      · have hq0 : 0 ≤ q := le_of_lt (lt_of_le_of_lt h0 hlt)
        have hcond : q ≠ 0 ∧ m < q := by
          constructor
          · intro hq
            rw [hq] at hlt
            exact absurd (lt_of_le_of_lt h0 hlt) (lt_irrefl 0)
          · exact hlt
        have hstep : pureMaxLoop (e :: rest) m loc best =
            pureMaxLoop rest q (pureLoc e) (some e) := by
          simp only [pureMaxLoop, hm, if_pos hcond]
        have hfold : (presentMags (e :: rest)).foldl max m =
            (presentMags rest).foldl max q := by
          rw [hpm, List.foldl_cons, max_eq_right (le_of_lt hlt)]
        obtain ⟨c1, c2, c3⟩ := ih q (pureLoc e) (some e) hq0
        have hqM : q ≤ (presentMags rest).foldl max q :=
          foldl_max_init (presentMags rest) q
        refine ⟨?_, ?_, ?_⟩
        · rw [hstep, hfold]
          exact c1
        · intro hM
          exfalso
          rw [hfold] at hM
          rw [hM] at hqM
          exact absurd (lt_of_lt_of_le hlt hqM) (lt_irrefl m)
        · intro hM
          rw [hfold] at hM ⊢
          by_cases hqeq : q = (presentMags rest).foldl max q
          · refine ⟨e, ?_, ?_⟩
            · exact List.find?_cons_of_pos _
                (by simp only [decide_eq_true_eq, hm, Option.some.injEq]
                    exact hqeq)
            · rw [hstep, c2 hqeq.symm, ← hqeq]
          · have hqlt : q < (presentMags rest).foldl max q :=
              lt_of_le_of_ne hqM hqeq
            obtain ⟨fst, hfind, hloop⟩ := c3 hqlt
            have hne : ¬((fun r => decide (pureMag r =
                some ((presentMags rest).foldl max q))) e = true) := by
              simp only [decide_eq_true_eq, hm, Option.some.injEq]
              exact hqeq
            refine ⟨fst, ?_, ?_⟩
            · exact (@List.find?_cons_of_neg _
                (fun r => decide (pureMag r = some ((presentMags rest).foldl max q)))
                e rest hne).trans hfind
            · rw [hstep]
              exact hloop
      · have hstep : pureMaxLoop (e :: rest) m loc best =
            pureMaxLoop rest m loc best := by
          have : ¬(q ≠ 0 ∧ m < q) := fun hc => hlt hc.2
          simp only [pureMaxLoop, hm, if_neg this]
        have hqm : q ≤ m := le_of_not_lt hlt
        have hfold : (presentMags (e :: rest)).foldl max m =
            (presentMags rest).foldl max m := by
          rw [hpm, List.foldl_cons, max_eq_left hqm]
        obtain ⟨c1, c2, c3⟩ := ih m loc best h0
        refine ⟨?_, ?_, ?_⟩
        · rw [hstep, hfold]
          exact c1
        · intro hM
          rw [hfold] at hM
          rw [hstep]
          exact c2 hM
        · intro hM
          rw [hfold] at hM ⊢
          have hqne : ¬q = (presentMags rest).foldl max m := by
            intro hq
            rw [hq] at hqm
            exact absurd hM (not_lt.mpr hqm)
          obtain ⟨fst, hfind, hloop⟩ := c3 hM
          have hne : ¬((fun r => decide (pureMag r =
              some ((presentMags rest).foldl max m))) e = true) := by
            simp only [decide_eq_true_eq, hm, Option.some.injEq]
            exact hqne
          refine ⟨fst, ?_, ?_⟩
          · exact (@List.find?_cons_of_neg _
              (fun r => decide (pureMag r = some ((presentMags rest).foldl max m)))
              e rest hne).trans hfind
          · rw [hstep]
            exact hloop

theorem posMags_sub_present (fs : List EventRecord) :
    ∀ q ∈ posMags fs, q ∈ presentMags fs := by
  intro q hq
  obtain ⟨r, hr, hf⟩ := List.mem_filterMap.mp hq
  cases hm : pureMag r with
  | none =>
    simp only [hm] at hf
    cases hf
  | some a =>
    simp only [hm] at hf
    by_cases ha : 0 < a
    · rw [if_pos ha] at hf
      cases hf
      exact List.mem_filterMap.mpr ⟨r, hr, hm⟩
    · rw [if_neg ha] at hf
      cases hf

/-- C1 (amended): on a collection free of null properties/geometry objects
and containing at least one record with a present, strictly positive
magnitude, get_maximum returns the maximum over the present positive
magnitude values together with the first record attaining it (left-to-right
scan with strict >) and that record's location. Records whose present
magnitudes are zero or negative can never be selected, because the running
maximum starts at 0 and only a strictly greater magnitude replaces it. -/
theorem getMaximum_first_positive_max (d : Data) (fs : List EventRecord)
    (hf : d.features = .val fs) (hok : ∀ r ∈ fs, recordOk r = true)
    (hpos : fs.any magPositive = true) :
    ∃ M fst,
      Analysis.get_maximum (some d) =
        .ok (.triple M (pureLoc fst) (some fst)) ∧
      M ∈ posMags fs ∧ (∀ q ∈ posMags fs, q ≤ M) ∧
      fs.find? (fun r => decide (pureMag r = some M)) = some fst := by
  obtain ⟨r0, hr0, hp0⟩ := List.any_eq_true.mp hpos
  obtain ⟨q0, hq0, hq0pos⟩ : ∃ q0, pureMag r0 = some q0 ∧ 0 < q0 := by
    cases hm : pureMag r0 with
    | none => rw [magPositive, hm] at hp0; cases hp0
    | some a =>
      rw [magPositive, hm] at hp0
      exact ⟨a, rfl, of_decide_eq_true hp0⟩
  have hq0mem : q0 ∈ presentMags fs :=
    List.mem_filterMap.mpr ⟨r0, hr0, hq0⟩
  have hq0M : q0 ≤ (presentMags fs).foldl max 0 :=
    foldl_max_mem (presentMags fs) 0 q0 hq0mem
  have h0M : (0 : Rat) < (presentMags fs).foldl max 0 :=
    lt_of_lt_of_le hq0pos hq0M
  obtain ⟨-, -, c3⟩ := pureMaxLoop_char fs 0 (none, none) none (le_refl 0)
  obtain ⟨fst, hfind, hloop⟩ := c3 h0M
  have hfstM0 := List.find?_some hfind
  simp only [decide_eq_true_eq] at hfstM0
  have hfstM : pureMag fst = some ((presentMags fs).foldl max 0) := hfstM0
  have hfstmem : fst ∈ fs := List.mem_of_find?_eq_some hfind
  refine ⟨(presentMags fs).foldl max 0, fst, ?_, ?_, ?_, hfind⟩
  · rw [show Analysis.get_maximum (some d) = Analysis.maxLoop fs 0 (none, none) none
      by simp only [Analysis.get_maximum, hf]]
    rw [maxLoop_pure fs 0 (none, none) none hok, hloop]
  · refine List.mem_filterMap.mpr ⟨fst, hfstmem, ?_⟩
    simp only [hfstM]
    rw [if_pos h0M]
  · intro q hq
    exact foldl_max_mem (presentMags fs) 0 q (posMags_sub_present fs q hq)

/-- Witness for C1: three records with magnitudes 3, 5, 5 — the maximum is
5 and the first magnitude-5 record (with its location) is returned. -/
theorem getMaximum_first_positive_max_witness :
    ∃ M fst,
      Analysis.get_maximum
        (some ⟨.val [⟨.val ⟨.val 3, .absent, .absent⟩, .val ⟨.val [1, 2]⟩⟩,
          ⟨.val ⟨.val 5, .absent, .absent⟩, .val ⟨.val [10, 20]⟩⟩,
          ⟨.val ⟨.val 5, .absent, .absent⟩, .val ⟨.val [30, 40]⟩⟩]⟩) =
        .ok (.triple M (pureLoc fst) (some fst)) ∧
      M ∈ posMags [⟨.val ⟨.val 3, .absent, .absent⟩, .val ⟨.val [1, 2]⟩⟩,
          ⟨.val ⟨.val 5, .absent, .absent⟩, .val ⟨.val [10, 20]⟩⟩,
          ⟨.val ⟨.val 5, .absent, .absent⟩, .val ⟨.val [30, 40]⟩⟩] ∧
      (∀ q ∈ posMags [⟨.val ⟨.val 3, .absent, .absent⟩, .val ⟨.val [1, 2]⟩⟩,
          ⟨.val ⟨.val 5, .absent, .absent⟩, .val ⟨.val [10, 20]⟩⟩,
          ⟨.val ⟨.val 5, .absent, .absent⟩, .val ⟨.val [30, 40]⟩⟩], q ≤ M) ∧
      List.find? (fun r => decide (pureMag r = some M))
        [⟨.val ⟨.val 3, .absent, .absent⟩, .val ⟨.val [1, 2]⟩⟩,
          ⟨.val ⟨.val 5, .absent, .absent⟩, .val ⟨.val [10, 20]⟩⟩,
          ⟨.val ⟨.val 5, .absent, .absent⟩, .val ⟨.val [30, 40]⟩⟩] = some fst :=
  getMaximum_first_positive_max _ _ rfl (by decide) (by decide)

/-- C1 counterexample: a collection whose only record carries the present,
non-zero magnitude -1. The spec's exclusion policy removes only falsy-zero
or missing values, so -1 is the maximum over the present non-excluded
magnitudes, yet get_maximum returns magnitude 0 with no record and
location (None, None). -/
theorem negative_magnitude_not_found :
    nonExcludedMags [⟨.val ⟨.val (-1), .absent, .absent⟩, .absent⟩] = [-1] ∧
    Analysis.get_maximum
      (some ⟨.val [⟨.val ⟨.val (-1), .absent, .absent⟩, .absent⟩]⟩) =
      .ok (.triple 0 (none, none) none) ∧
    (0 : Rat) ≠ -1 :=
  ⟨by decide, by decide, by decide⟩

end Earthquakes
